import Mathlib

/-!
Verification of the resource-coordination layer of `src/concurrency-manager.js`
(`ConcurrencyManager`): named mutex registry, match-scoped game locks with
staleness recovery, priority task scheduler over a fixed thread pool, turn
queues, deadlock detection and stats.

The JavaScript class is embedded shallowly: each `Map` becomes an
insertion-ordered association list with JavaScript `Map` semantics
(`set` updates in place, `delete` removes, iteration follows insertion
order), the callback closures stored in waiter queues become waiter
identifiers plus explicit re-invocation functions, and the event loop's
`setTimeout(next, 0)` scheduling becomes an explicit pending-callback list
that a separate step consumes.  `Date.now()` is threaded as an explicit
`now : Nat` argument.
-/

namespace ConcurrencyManager

/-! ## JavaScript `Map` semantics on association lists -/

/-- `Map.get`: value of the first (unique) binding of `k`. -/
def mget {κ α : Type} [DecidableEq κ] : List (κ × α) → κ → Option α
  | [], _ => none
  | (k', v') :: rest, k => if k' = k then some v' else mget rest k

/-- `Map.set`: update the binding in place if the key is present
(JavaScript `Map.set` keeps the original insertion position), otherwise
append the new binding at the end. -/
def mset {κ α : Type} [DecidableEq κ] : List (κ × α) → κ → α → List (κ × α)
  | [], k, v => [(k, v)]
  | (k', v') :: rest, k, v =>
    if k' = k then (k, v) :: rest else (k', v') :: mset rest k v

/-- `Map.delete`: remove the binding of `k`. -/
def mdelete {κ α : Type} [DecidableEq κ] (m : List (κ × α)) (k : κ) : List (κ × α) :=
  m.filter (fun p => p.1 ≠ k)

/-- `Map.has`. -/
def mhas {κ α : Type} [DecidableEq κ] (m : List (κ × α)) (k : κ) : Bool :=
  (mget m k).isSome

/-! ## Mutex registry (`acquireMutex` / `releaseMutex`, lines 27–70)

A queue entry in the source is the waiter's `tryAcquire` closure; here a
waiter is an identifier `wid : Nat`, and `tryAcquire` is the explicit
function re-run when the closure is invoked.  `granted` logs, in order,
every call of a waiter's `resolve` (a resolve on an already-rejected
promise leaves the promise rejected, but the state mutations of the
closure still happen).  `rejected` logs timeout rejections.  `pending`
logs callbacks scheduled with `setTimeout(next, 0)` and not yet run. -/

structure Mutex where
  locked : Bool
  owner : Option Nat
  queue : List Nat
  deriving DecidableEq, Repr

structure MState where
  mutexes : List (Nat × Mutex)
  granted : List Nat
  rejected : List Nat
  pending : List (Nat × Nat)
  deriving DecidableEq, Repr

def emptyMState : MState := ⟨[], [], [], []⟩

/-- `tryAcquire` (lines 34–50): if the resource has no mutex or the mutex
is not locked, install `{ locked: true, owner: null, queue: [] }` and
resolve; otherwise push this waiter's closure onto the queue.
Note the acquisition branch overwrites any existing entry, so a
previously accumulated waiter queue is replaced by `[]`. -/
def tryAcquire (rid wid : Nat) (s : MState) : MState :=
  match mget s.mutexes rid with
  | some m =>
    if m.locked then
      { s with mutexes := mset s.mutexes rid { m with queue := m.queue ++ [wid] } }
    else
      { s with mutexes := mset s.mutexes rid ⟨true, none, []⟩,
               granted := s.granted ++ [wid] }
  | none =>
      { s with mutexes := mset s.mutexes rid ⟨true, none, []⟩,
               granted := s.granted ++ [wid] }

/-- `acquireMutex` (lines 28–54): sets a rejection timer (modelled by
`fireMutexTimeout` below) and synchronously runs `tryAcquire`. -/
def acquireMutex (rid wid : Nat) (s : MState) : MState :=
  tryAcquire rid wid s

/-- The timer installed by `acquireMutex` (lines 30–32): on expiry the
promise is rejected with the timeout error.  The callback does nothing
else — in particular it does not remove the waiter from the queue. -/
def fireMutexTimeout (wid : Nat) (s : MState) : MState :=
  { s with rejected := s.rejected ++ [wid] }

/-- `releaseMutex` (lines 56–70): if the mutex exists and is locked, clear
`locked` and `owner`; then either shift the queue head and schedule it via
`setTimeout(next, 0)`, or delete the registry entry when the queue is
empty. -/
def releaseMutex (rid : Nat) (s : MState) : MState :=
  match mget s.mutexes rid with
  | some m =>
    if m.locked then
      match m.queue with
      | next :: rest =>
        { s with
            mutexes := mset s.mutexes rid { m with locked := false, owner := none, queue := rest },
            pending := s.pending ++ [(rid, next)] }
      | [] => { s with mutexes := mdelete s.mutexes rid }
    else s
  | none => s

/-- The event loop running the oldest scheduled `setTimeout(next, 0)`
callback: the shifted waiter's `tryAcquire` closure executes against the
current state. -/
def runPending (s : MState) : MState :=
  match s.pending with
  | [] => s
  | (rid, wid) :: rest => tryAcquire rid wid { s with pending := rest }

/-! ## Game locks (`acquireGameLock` / `releaseGameLock`, lines 72–121)

The lock key is `game_` followed by the game id; since that prefixing is
injective, the key is modelled as the game id itself.  A queue entry is a
queued `tryAcquireGameLock` closure, identified by the `playerId` it
captured.  `ggranted` logs resolve calls in order; `gpending` logs
callbacks scheduled by `releaseGameLock` via `setTimeout(next, 0)`. -/

structure GameLock where
  locked : Bool
  owner : Option Nat
  timestamp : Nat
  queue : List Nat
  deriving DecidableEq, Repr

structure GState where
  gameLocks : List (Nat × GameLock)
  ggranted : List Nat
  gpending : List (Nat × Nat)
  deriving DecidableEq, Repr

def emptyGState : GState := ⟨[], [], []⟩

/-- `tryAcquireGameLock` (lines 80–102), with explicit fuel for the single
self-call in the stale branch: if no lock is present or it is unlocked,
install `{ locked: true, owner: playerId, timestamp: now, queue: [] }` and
resolve; if the held lock is stale (`now - timestamp > 10000`), delete the
whole entry — waiter queue included — and retry, which then acquires;
otherwise push this closure onto the queue.  The self-call happens at most
once per invocation (after the delete the key is absent), so fuel 2 is
exact; fuel 0 is unreachable from `acquireGameLock`. -/
def tryAcquireGameLock : Nat → Nat → Nat → Nat → GState → GState
  | 0, _, _, _, s => s
  | fuel + 1, key, pid, now, s =>
    match mget s.gameLocks key with
    | some l =>
      if l.locked then
        if now - l.timestamp > 10000 then
          tryAcquireGameLock fuel key pid now
            { s with gameLocks := mdelete s.gameLocks key }
        else
          { s with gameLocks := mset s.gameLocks key { l with queue := l.queue ++ [pid] } }
      else
        { s with gameLocks := mset s.gameLocks key ⟨true, some pid, now, []⟩,
                 ggranted := s.ggranted ++ [pid] }
    | none =>
        { s with gameLocks := mset s.gameLocks key ⟨true, some pid, now, []⟩,
                 ggranted := s.ggranted ++ [pid] }

/-- `acquireGameLock` (lines 73–106): sets a rejection timer (modelled by
`fireGameLockTimeout`) and synchronously runs `tryAcquireGameLock`. -/
def acquireGameLock (key pid now : Nat) (s : GState) : GState :=
  tryAcquireGameLock 2 key pid now s

/-- The timer installed by `acquireGameLock` (lines 76–78): rejection
only; the waiter's queue entry is not touched.  Rejections are not logged
in `GState` because no claim about game locks observes them. -/
def fireGameLockTimeout (s : GState) : GState := s

/-- `releaseGameLock` (lines 108–121): only when the lock exists and its
`owner` equals the releasing `playerId` does anything happen — clear
`locked` and `owner`, then shift-and-schedule the queue head or delete the
entry.  A non-owner's release is a silent no-op. -/
def releaseGameLock (key pid : Nat) (s : GState) : GState :=
  match mget s.gameLocks key with
  | some l =>
    if l.owner = some pid then
      match l.queue with
      | next :: rest =>
        { s with
            gameLocks := mset s.gameLocks key { l with locked := false, owner := none, queue := rest },
            gpending := s.gpending ++ [(key, next)] }
      | [] => { s with gameLocks := mdelete s.gameLocks key }
    else s
  | none => s

/-! ## Thread pool, priority scheduler and turn queues (lines 123–233)

`playerQueues` is one shared `Map`: the priority tiers store task wrappers
under the keys `high` / `normal` / `low`, and the turn queues store raw
player identifiers under keys `queue_<gameId>`.  A queue element is
therefore a sum of the two shapes. -/

structure TaskW where
  id : Nat
  priority : String
  timestamp : Nat
  deriving DecidableEq, Repr

inductive QEntry where
  | task : TaskW → QEntry
  | player : Nat → QEntry
  deriving DecidableEq, Repr

structure Thread where
  id : Nat
  busy : Bool
  currentTask : Option Nat
  deriving DecidableEq, Repr

/-- A submitted unit of work either returns a result or throws. -/
abbrev Outcome := Except String String

instance : DecidableEq Outcome := fun x y =>
  match x, y with
  | .ok a, .ok b => if h : a = b then .isTrue (by rw [h]) else .isFalse (by simp [h])
  | .error a, .error b => if h : a = b then .isTrue (by rw [h]) else .isFalse (by simp [h])
  | .ok _, .error _ => .isFalse (by simp)
  | .error _, .ok _ => .isFalse (by simp)

structure PState where
  threadPool : List Thread
  maxThreads : Nat
  activeThreads : Int
  playerQueues : List (String × List QEntry)
  futures : List (Nat × Outcome)
  started : List Nat
  deriving DecidableEq, Repr

/-- `initializeThreadPool` (lines 17–25). -/
def initializeThreadPool (n : Nat) : List Thread :=
  (List.range n).map (fun i => ⟨i, false, none⟩)

/-- The constructor (lines 5–15): ten idle threads, empty registries.
`futures` logs promise settlements `(taskId, outcome)` and `started` logs
task ids in dispatch order. -/
def initPState : PState :=
  ⟨initializeThreadPool 10, 10, 0, [], [], []⟩

/-- JavaScript `Array.prototype.indexOf`: first index, `-1` if absent. -/
def jsIndexOf {α : Type} [DecidableEq α] (x : α) : List α → Int
  | [] => -1
  | y :: rest =>
    if y = x then 0
    else
      let r := jsIndexOf x rest
      if r = -1 then -1 else r + 1

def timestampOf : QEntry → Nat
  | .task t => t.timestamp
  | .player _ => 0

/-- Stable insertion of an element into a timestamp-sorted queue. -/
def insertByTimestamp (e : QEntry) : List QEntry → List QEntry
  | [] => [e]
  | x :: rest =>
    if timestampOf x ≤ timestampOf e then x :: insertByTimestamp e rest
    else e :: x :: rest

/-- `queue.sort((a, b) => a.timestamp - b.timestamp)` (line 156): a stable
sort by timestamp (V8's sort is stable). -/
def sortByTimestamp : List QEntry → List QEntry
  | [] => []
  | x :: rest => insertByTimestamp x (sortByTimestamp rest)

/-- `addToQueue` (lines 147–157): create the tier queue if missing, push
the wrapper, then sort the queue by submission timestamp. -/
def addToQueue (t : TaskW) (s : PState) : PState :=
  let qs0 := if mhas s.playerQueues t.priority then s.playerQueues
             else mset s.playerQueues t.priority []
  let queue := (mget qs0 t.priority).getD []
  { s with playerQueues := mset qs0 t.priority (sortByTimestamp (queue ++ [.task t])) }

/-- `this.threadPool.find(thread => !thread.busy)` (lines 136, 185). -/
def findAvailableThread (pool : List Thread) : Option Thread :=
  pool.find? (fun th => !th.busy)

/-- The synchronous prefix of `executeTask` (lines 159–162): mark the
thread busy with this task and bump `activeThreads`; the `await` of the
unit of work suspends the rest (`completeTask` below). -/
def startTask (thId : Nat) (t : TaskW) (s : PState) : PState :=
  { s with
      threadPool := s.threadPool.map
        (fun th => if th.id = thId then { th with busy := true, currentTask := some t.id } else th),
      activeThreads := s.activeThreads + 1,
      started := s.started ++ [t.id] }

/-- `processNextTask` (lines 179–193): walk the tiers `high`, `normal`,
`low`; at the first non-empty tier queue, if an idle thread exists, shift
the queue head and execute it there (a tier queue only ever holds `task`
entries, so the `player` branch is unreachable). -/
def processNextTaskGo (s : PState) : List String → PState
  | [] => s
  | p :: prios =>
    match mget s.playerQueues p with
    | some (e :: rest) =>
      match findAvailableThread s.threadPool with
      | some th =>
        match e with
        | .task t => startTask th.id t { s with playerQueues := mset s.playerQueues p rest }
        | .player _ => s
      | none => processNextTaskGo s prios
    | _ => processNextTaskGo s prios

def processNextTask (s : PState) : PState :=
  processNextTaskGo s ["high", "normal", "low"]

/-- The resumption of `executeTask` after the awaited unit of work settles
(lines 164–173): settle the task's promise with the outcome, then in the
`finally` block free the thread and decrement `activeThreads`. -/
def completeTask (thId tid : Nat) (outcome : Outcome) (s : PState) : PState :=
  { s with
      futures := s.futures ++ [(tid, outcome)],
      threadPool := s.threadPool.map
        (fun th => if th.id = thId then { th with busy := false, currentTask := none } else th),
      activeThreads := s.activeThreads - 1 }

/-- The whole tail of `executeTask` (lines 164–176): settle and free, then
`processNextTask()`. -/
def finishTask (thId tid : Nat) (outcome : Outcome) (s : PState) : PState :=
  processNextTask (completeTask thId tid outcome s)

/-- `executeInThread` (lines 124–145): if an idle thread exists the task
starts immediately — regardless of its priority — otherwise it is queued
in its tier. -/
def executeInThread (t : TaskW) (s : PState) : PState :=
  match findAvailableThread s.threadPool with
  | some th => startTask th.id t s
  | none => addToQueue t s

/-- `addPlayerToQueue` (lines 196–210): create the turn queue if missing,
append the player unless already present, and return
`queue.indexOf(playerId)`. -/
def addPlayerToQueue (gid pid : Nat) (s : PState) : PState × Int :=
  let queueKey := "queue_" ++ toString gid
  let qs0 := if mhas s.playerQueues queueKey then s.playerQueues
             else mset s.playerQueues queueKey []
  let queue := (mget qs0 queueKey).getD []
  let queue' := if QEntry.player pid ∈ queue then queue else queue ++ [.player pid]
  ({ s with playerQueues := mset qs0 queueKey queue' }, jsIndexOf (QEntry.player pid) queue')

/-- The `queuedTasks` field of `getStats()` (lines 317–318): the summed
length of every queue in the shared `playerQueues` map. -/
def getStatsQueuedTasks (s : PState) : Nat :=
  (s.playerQueues.map (fun p => p.2.length)).sum

/-- The three priority tiers (line 180). -/
def tierKeys : List String := ["high", "normal", "low"]

/-- Modelled from the spec's words (§4.6, "total queued tasks across all
tiers"): the summed length of the queues stored under the `high`,
`normal` and `low` tier keys, counting nothing else. -/
def queuedTasksAcrossTiers (s : PState) : Nat :=
  ((s.playerQueues.filter (fun p => p.1 ∈ tierKeys)).map (fun p => p.2.length)).sum

/-- The queued entries of the shared map that are not tier queues: the
per-game turn queues `queue_<gameId>`. -/
def queuedOutsideTiers (s : PState) : Nat :=
  ((s.playerQueues.filter (fun p => p.1 ∉ tierKeys)).map (fun p => p.2.length)).sum

/-- A tier whose queue is missing or empty (the `processNextTask` loop
skips it). -/
def tierIsEmpty (s : PState) (p : String) : Prop :=
  mget s.playerQueues p = none ∨ mget s.playerQueues p = some []

instance (s : PState) (p : String) : Decidable (tierIsEmpty s p) := by
  unfold tierIsEmpty
  infer_instance

/-! ## Deadlock detection (`detectDeadlocks` / `detectCycle`, lines 236–288)

The source's `dfs` mutates a shared `visited` set (never shrunk, so it is
threaded through every call) and a `currentPath` set (every addition is
undone before an empty return, so passing it immutably downward is
equivalent).  Sets preserve insertion order, so both become `List Nat`.
The recursion is guarded by fuel: every non-trivial `dfs` call adds an
unvisited resource to `visited`, so nesting is bounded by the number of
mutexes and fuel `mutexes.length + 1` never runs out. -/

/-- Index of the first occurrence, for `Array.from(set).indexOf(x)`. -/
def listIdxOf {α : Type} [DecidableEq α] (x : α) : List α → Nat
  | [] => 0
  | y :: rest => if y = x then 0 else listIdxOf x rest + 1

/-- The `for (const resource of ownerResources)` loop (lines 275–280):
run `dfs` on each resource in turn, returning the first non-empty result
and threading `visited`. -/
def dfsLoop (f : Nat → List Nat → List Nat × List Nat) :
    List Nat → List Nat → List Nat × List Nat
  | [], visited => ([], visited)
  | r :: rs, visited =>
    let res := f r visited
    if res.1.isEmpty then dfsLoop f rs res.2 else res

/-- `dfs` inside `detectCycle` (lines 256–285): a cycle is the suffix of
the current path from the revisited resource; otherwise recurse into
every resource whose recorded owner equals this mutex's owner.  A mutex
with `owner` null (falsy) contributes no edges. -/
def dfsWaitFor (mutexes : List (Nat × Mutex)) (fuel current : Nat)
    (visited path : List Nat) : List Nat × List Nat :=
  match fuel with
  | 0 => ([], visited)
  | fuel' + 1 =>
    if current ∈ path then
      (path.drop (listIdxOf current path), visited)
    else if current ∈ visited then
      ([], visited)
    else
      let visited' := visited ++ [current]
      let path' := path ++ [current]
      match mget mutexes current with
      | some m =>
        match m.owner with
        | some o =>
          let ownerResources := (mutexes.map Prod.fst).filter (fun id =>
            match mget mutexes id with
            | some m2 => m2.owner = some o
            | none => false)
          dfsLoop (fun r v => dfsWaitFor mutexes fuel' r v path') ownerResources visited'
        | none => ([], visited')
      | none => ([], visited')

/-- `detectCycle` (lines 252–288). -/
def detectCycle (mutexes : List (Nat × Mutex)) (resourceId : Nat)
    (visited : List Nat) : List Nat × List Nat :=
  dfsWaitFor mutexes (mutexes.length + 1) resourceId visited []

/-- The loop of `detectDeadlocks` (lines 240–247), threading the shared
`visited` set through successive `detectCycle` calls. -/
def detectDeadlocksGo (mutexes : List (Nat × Mutex)) :
    List (Nat × Mutex) → List Nat → List (List Nat)
  | [], _ => []
  | (rid, m) :: rest, visited =>
    if m.locked ∧ rid ∉ visited then
      let res := detectCycle mutexes rid visited
      if res.1.isEmpty then detectDeadlocksGo mutexes rest res.2
      else res.1 :: detectDeadlocksGo mutexes rest res.2
    else detectDeadlocksGo mutexes rest visited

/-- `detectDeadlocks` (lines 236–250). -/
def detectDeadlocks (s : MState) : List (List Nat) :=
  detectDeadlocksGo s.mutexes s.mutexes []

/-! ## Concrete scenarios -/

/-- Resource 0 with holder waiter 1 and waiters 2, 3 enqueued in order. -/
def mutexABC : MState :=
  acquireMutex 0 3 (acquireMutex 0 2 (acquireMutex 0 1 emptyMState))

/-- …after the holder releases, the scheduled head waiter re-acquires,
and the second grantee releases in turn. -/
def mutexABCEnd : MState :=
  releaseMutex 0 (runPending (releaseMutex 0 mutexABC))

/-- Resource 0 held by waiter 1 with waiter 2 queued. -/
def mutexHeldPlusWaiter : MState :=
  acquireMutex 0 2 (acquireMutex 0 1 emptyMState)

/-- …after waiter 2's acquire timeout fires. -/
def mutexAfterTimeout : MState := fireMutexTimeout 2 mutexHeldPlusWaiter

/-- …after the holder then releases. -/
def mutexAfterTimeoutRelease : MState := releaseMutex 0 mutexAfterTimeout

/-- …after the event loop runs the callback that release scheduled. -/
def mutexAfterTimeoutWake : MState := runPending mutexAfterTimeoutRelease

/-- The deadlock configuration of the claim: owner 10 holds resource 1
and queues on resource 2; owner 20 holds resource 2 and queues on
resource 1 (acquisition order: 10 takes 1, 20 takes 2, 10 queues on 2,
20 queues on 1). -/
def deadlockedState : MState :=
  acquireMutex 1 20 (acquireMutex 2 10 (acquireMutex 2 20 (acquireMutex 1 10 emptyMState)))

/-- Game lock 0: player 1 acquires at t = 0, player 2 arrives at
t = 1000 while the lock is fresh and is queued. -/
def gameLockWithWaiter : GState :=
  acquireGameLock 0 2 1000 (acquireGameLock 0 1 0 emptyGState)

/-- …then player 3 attempts the lock at t = 15000, past the 10 s
staleness threshold. -/
def gameLockAfterStaleGrab : GState := acquireGameLock 0 3 15000 gameLockWithWaiter

/-- Nine tasks occupying threads 0–8, leaving exactly thread 9 idle. -/
def poolNineBusy : PState :=
  (List.range 9).foldl (fun st i => executeInThread ⟨i, "normal", 0⟩ st) initPState

/-- …then a low (id 100), a normal (id 101) and a high (id 102) task are
submitted back-to-back in that order. -/
def poolLNHSubmitted : PState :=
  executeInThread ⟨102, "high", 12⟩
    (executeInThread ⟨101, "normal", 11⟩
      (executeInThread ⟨100, "low", 10⟩ poolNineBusy))

/-- …then the task running on thread 9 finishes (twice: first the one
started at submission, then the one dispatched in its place). -/
def poolLNHDone : PState :=
  finishTask 9 102 (Except.ok "r") (finishTask 9 100 (Except.ok "r") poolLNHSubmitted)

/-- One turn-queue participant (player 42 of game 7), no submitted tasks. -/
def oneTurnParticipant : PState := (addPlayerToQueue 7 42 initPState).1

/-- A one-thread pool whose only thread is idle, with one queued high task. -/
def soloIdleHigh : PState :=
  ⟨[⟨0, false, none⟩], 1, 0, [("high", [QEntry.task ⟨5, "high", 3⟩])], [], []⟩

/-- A one-thread pool, idle, with an empty high tier and a queued normal task. -/
def soloIdleNormal : PState :=
  ⟨[⟨0, false, none⟩], 1, 0, [("high", []), ("normal", [QEntry.task ⟨6, "normal", 4⟩])], [], []⟩

/-- A one-thread pool, idle, with an empty normal tier and a queued low task. -/
def soloIdleLow : PState :=
  ⟨[⟨0, false, none⟩], 1, 0, [("normal", []), ("low", [QEntry.task ⟨8, "low", 5⟩])], [], []⟩

/-- Thread 0 busy running task 50, with task 7 queued in the high tier. -/
def failingTaskState : PState :=
  ⟨[⟨0, true, some 50⟩], 1, 1, [("high", [QEntry.task ⟨7, "high", 0⟩])], [], []⟩

/-! ## Map and list lemmas -/

theorem mget_mset_self {κ α : Type} [DecidableEq κ] (m : List (κ × α)) (k : κ) (v : α) :
    mget (mset m k v) k = some v := by
  induction m with
  | nil => simp [mget, mset]
  | cons p rest ih =>
    obtain ⟨k', v'⟩ := p
    by_cases h : k' = k
    · simp [mget, mset, h]
    · simp [mget, mset, h, ih]

theorem mget_mset_ne {κ α : Type} [DecidableEq κ] (m : List (κ × α)) (k j : κ) (v : α)
    (h : k ≠ j) : mget (mset m k v) j = mget m j := by
  induction m with
  | nil => simp [mget, mset, h]
  | cons p rest ih =>
    obtain ⟨k', v'⟩ := p
    by_cases hk : k' = k
    · subst hk
      simp [mget, mset, h]
    · by_cases hj : k' = j
      · simp [mget, mset, hk, hj, Ne.symm h]
      · simp [mget, mset, hk, hj, ih]

theorem mset_mget_self {κ α : Type} [DecidableEq κ] (m : List (κ × α)) (k : κ) (v : α)
    (h : mget m k = some v) : mset m k v = m := by
  induction m with
  | nil => simp [mget] at h
  | cons p rest ih =>
    obtain ⟨k', v'⟩ := p
    by_cases hk : k' = k
    · subst hk
      simp [mget] at h
      simp [mset, h]
    · simp [mget, hk] at h
      simp [mset, hk, ih h]

theorem mget_mdelete_self {κ α : Type} [DecidableEq κ] (m : List (κ × α)) (k : κ) :
    mget (mdelete m k) k = none := by
  induction m with
  | nil => simp [mget, mdelete]
  | cons p rest ih =>
    obtain ⟨k', v'⟩ := p
    by_cases h : k' = k
    · simpa [mdelete, h] using ih
    · simpa [mdelete, mget, h] using ih

theorem mset_mset {κ α : Type} [DecidableEq κ] (m : List (κ × α)) (k : κ) (v w : α) :
    mset (mset m k v) k w = mset m k w := by
  induction m with
  | nil => simp [mset]
  | cons p rest ih =>
    obtain ⟨k', v'⟩ := p
    by_cases h : k' = k
    · simp [mset, h]
    · simp [mset, h, ih]

theorem jsIndexOf_append_self {α : Type} [DecidableEq α] (x : α) (l : List α)
    (h : x ∉ l) : jsIndexOf x (l ++ [x]) = (l.length : Int) := by
  induction l with
  | nil => simp [jsIndexOf]
  | cons y rest ih =>
    have hy : y ≠ x := by
      intro hxy
      exact h (hxy ▸ List.mem_cons_self y rest)
    have hrest : x ∉ rest := fun hx => h (List.mem_cons_of_mem y hx)
    have hlen : (rest.length : Int) ≠ -1 := by
      intro hc
      omega
    simp only [List.cons_append, jsIndexOf, hy, if_false, List.append_eq, ih hrest]
    rw [if_neg hlen]
    simp only [List.length_cons]
    push_cast
    omega

/-! ## Claims -/

/-- **C1.**  With waiters 1, 2, 3 enqueued in order on resource 0 (2 and 3
added to the queue while 1 held the lock), successive releases do *not*
grant every waiter: waiter 1's release schedules waiter 2, but waiter 2's
re-acquisition in `tryAcquire` overwrites the registry entry with
`queue: []`, silently dropping waiter 3; after waiter 2's release the
entry is deleted and nothing remains that could ever grant waiter 3.  The
code contradicts the FIFO-grant guarantee its own waiter queue exists to
provide. -/
theorem claim1_waiters_dropped_on_regrant :
    mutexABC = ⟨[(0, ⟨true, none, [2, 3]⟩)], [1], [], []⟩ ∧
    runPending (releaseMutex 0 mutexABC) =
      ⟨[(0, ⟨true, none, []⟩)], [1, 2], [], []⟩ ∧
    mutexABCEnd = ⟨[], [1, 2], [], []⟩ ∧
    3 ∉ mutexABCEnd.granted := by
  decide

/-- **C2.**  Waiter 2 queues behind holder 1 on resource 0 and its
timeout fires: the timer callback only rejects the promise — waiter 2 is
*still* in the resource's waiter queue afterwards, and the holder's
subsequent release shifts exactly that entry and schedules its callback,
which then re-locks the mutex.  The cleanup the claim describes does not
exist in the code. -/
theorem claim2_timeout_leaves_waiter_queued :
    mget mutexAfterTimeout.mutexes 0 = some ⟨true, none, [2]⟩ ∧
    mutexAfterTimeout.rejected = [2] ∧
    mutexAfterTimeoutRelease.pending = [(0, 2)] ∧
    mget mutexAfterTimeoutWake.mutexes 0 = some ⟨true, none, []⟩ ∧
    mutexAfterTimeoutWake.granted = [1, 2] := by
  decide

/-- **C6.**  In the two-resource deadlock configuration the detector
returns no cycle at all: `acquireMutex` records `owner: null` for every
acquisition (line 38), so the wait-for graph built from recorded owners
never has an edge.  Moreover, even in an (unreachable) state where the
owners *are* recorded, the owner-to-owned-resource edges make every held
resource a self-loop, so the reported cycles are `[1]` and `[2]`, never a
cycle containing both resources. -/
theorem claim6_detector_misses_deadlock :
    mget deadlockedState.mutexes 1 = some ⟨true, none, [20]⟩ ∧
    mget deadlockedState.mutexes 2 = some ⟨true, none, [10]⟩ ∧
    detectDeadlocks deadlockedState = [] ∧
    detectDeadlocks ⟨[(1, ⟨true, some 10, [20]⟩), (2, ⟨true, some 20, [10]⟩)], [], [], []⟩ =
      [[1], [2]] := by
  decide

/-- **C3, counterexample.**  Resource 0 is held (by the caller that ran
`acquireMutex`, recorded as `owner: null`), yet `releaseMutex` — which
takes no caller identity at all, so in particular a non-owner can invoke
it — succeeds, frees the lock and deletes the registry entry instead of
failing with `InvalidRelease` and leaving the state unchanged. -/
theorem claim3_counterexample_release_without_ownership :
    (mget (acquireMutex 0 1 emptyMState).mutexes 0 = some ⟨true, none, []⟩) ∧
    releaseMutex 0 (acquireMutex 0 1 emptyMState) ≠ acquireMutex 0 1 emptyMState ∧
    (releaseMutex 0 (acquireMutex 0 1 emptyMState)).mutexes = [] := by
  decide

/-- **C4, counterexample.**  Player 2 queues on game lock 0 at t = 1000
while holder 1 (acquired at t = 0) is fresh; at t = 15000 the staleness
threshold is long exceeded and player 3's acquire attempt triggers the
stale branch — but the lock is granted to player 3, not to the oldest
queued waiter 2, whose queue entry is deleted with the entry and who is
never granted. -/
theorem claim4_counterexample_stale_grant_bypasses_waiter :
    mget gameLockWithWaiter.gameLocks 0 = some ⟨true, some 1, 0, [2]⟩ ∧
    15000 - 0 > 10000 ∧
    gameLockAfterStaleGrab.ggranted = [1, 3] ∧
    2 ∉ gameLockAfterStaleGrab.ggranted ∧
    mget gameLockAfterStaleGrab.gameLocks 0 = some ⟨true, some 3, 15000, []⟩ ∧
    gameLockAfterStaleGrab.gpending = [] := by
  decide

/-- **C5, counterexample.**  With exactly one idle worker (thread 9) and
a low (100), a normal (101) and a high (102) task submitted back-to-back,
the low task is dispatched *first* — `executeInThread` starts a task
immediately whenever any worker is idle, bypassing the priority tiers —
and only the remaining two go through `processNextTask`, so the order is
low, high, normal rather than high, normal, low. -/
theorem claim5_counterexample_idle_worker_bypasses_priority :
    (poolNineBusy.threadPool.filter (fun th => !th.busy)).length = 1 ∧
    poolLNHDone.started.drop 9 = [100, 102, 101] ∧
    ([100, 102, 101] : List Nat) ≠ [102, 101, 100] := by
  decide

/-- **C9, counterexample.**  After `addPlayerToQueue(7, 42)` on a fresh
manager, `getStats().queuedTasks` reports 1 although no task is queued in
any tier: the stat sums every queue of the shared `playerQueues` map,
turn queues included. -/
theorem claim9_counterexample_turn_queue_counted :
    getStatsQueuedTasks oneTurnParticipant = 1 ∧
    queuedTasksAcrossTiers oneTurnParticipant = 0 := by
  decide

/-- Helper: an acquire attempt against a held, stale game lock deletes
the whole entry (waiter queue included) and installs a fresh lock owned
by the attempting caller, resolving that caller and scheduling nothing. -/
theorem stale_acquire_eq (s : GState) (key pid now : Nat) (l : GameLock)
    (h : mget s.gameLocks key = some l) (hl : l.locked = true)
    (hs : now - l.timestamp > 10000) :
    acquireGameLock key pid now s =
      { s with gameLocks := mset (mdelete s.gameLocks key) key ⟨true, some pid, now, []⟩,
               ggranted := s.ggranted ++ [pid] } := by
  simp only [acquireGameLock, tryAcquireGameLock, h, hl, hs, if_true, mget_mdelete_self]

/-- **C3 (amended).**  Generic mutex release performs no ownership check
(`releaseMutex` takes no caller identity, and every recorded mutex owner
is null): on a held mutex it always frees the lock, for any caller.  Only
the match-lock release checks ownership, and a non-owner's
`releaseGameLock` is a silent no-op that leaves holder, timestamp and
waiter queue unchanged — no `InvalidRelease` failure exists anywhere. -/
theorem claim3_nonowner_release :
    (∀ (s : GState) (key pid : Nat) (l : GameLock),
      mget s.gameLocks key = some l → l.owner ≠ some pid →
      releaseGameLock key pid s = s) ∧
    (∀ (s : MState) (rid : Nat) (m : Mutex),
      mget s.mutexes rid = some m → m.locked = true →
      mget (releaseMutex rid s).mutexes rid = none ∨
        ∃ m2 : Mutex, mget (releaseMutex rid s).mutexes rid = some m2 ∧
          m2.locked = false) := by
  constructor
  · intro s key pid l h howner
    simp only [releaseGameLock, h]
    rw [if_neg howner]
  · intro s rid m h hl
    simp only [releaseMutex, h, hl, if_true]
    cases hq : m.queue with
    | nil =>
      left
      simp [mget_mdelete_self]
    | cons a rest =>
      right
      exact ⟨⟨false, none, rest⟩, by simp [hq, mget_mset_self], rfl⟩

/-- Witness for C3 (amended): a non-owner (player 2) releasing game lock
0 held by player 1 changes nothing, and releasing held mutex 0 frees it
(here: deletes the entry) although `releaseMutex` has no notion of the
caller. -/
theorem claim3_witness :
    releaseGameLock 0 2 (acquireGameLock 0 1 0 emptyGState) =
      acquireGameLock 0 1 0 emptyGState ∧
    (mget (releaseMutex 0 (acquireMutex 0 1 emptyMState)).mutexes 0 = none ∨
      ∃ m2 : Mutex, mget (releaseMutex 0 (acquireMutex 0 1 emptyMState)).mutexes 0 = some m2 ∧
        m2.locked = false) := by
  constructor
  · exact claim3_nonowner_release.1 (acquireGameLock 0 1 0 emptyGState) 0 2
      ⟨true, some 1, 0, []⟩ (by decide) (by decide)
  · exact claim3_nonowner_release.2 (acquireMutex 0 1 emptyMState) 0
      ⟨true, none, []⟩ (by decide) (by decide)

/-- **C4 (amended).**  Staleness is only checked inside an acquire
attempt: when some `acquireGameLock` call finds the lock held and
`now - acquiredAt` beyond the 10-second threshold, the entry is deleted —
waiter queue included — and the lock is granted to that attempting
caller, not to the oldest queued waiter; a waiter queued while the lock
was fresh is not woken or granted when the threshold is crossed (crossing
the threshold is not an event in the code) and can only fail via its own
timeout. -/
theorem claim4_stale_acquire_grants_caller :
    ∀ (s : GState) (key pid now : Nat) (l : GameLock),
      mget s.gameLocks key = some l → l.locked = true →
      now - l.timestamp > 10000 →
      (acquireGameLock key pid now s).ggranted = s.ggranted ++ [pid] ∧
      mget (acquireGameLock key pid now s).gameLocks key = some ⟨true, some pid, now, []⟩ ∧
      (acquireGameLock key pid now s).gpending = s.gpending := by
  intro s key pid now l h hl hs
  rw [stale_acquire_eq s key pid now l h hl hs]
  exact ⟨rfl, by simp [mget_mset_self], rfl⟩

/-- Witness for C4 (amended): player 3's attempt at t = 15000 against the
lock held since t = 0 with player 2 queued. -/
theorem claim4_witness :
    (acquireGameLock 0 3 15000 gameLockWithWaiter).ggranted =
      gameLockWithWaiter.ggranted ++ [3] ∧
    mget (acquireGameLock 0 3 15000 gameLockWithWaiter).gameLocks 0 =
      some ⟨true, some 3, 15000, []⟩ ∧
    (acquireGameLock 0 3 15000 gameLockWithWaiter).gpending =
      gameLockWithWaiter.gpending :=
  claim4_stale_acquire_grants_caller gameLockWithWaiter 0 3 15000
    ⟨true, some 1, 0, [2]⟩ (by decide) (by decide) (by decide)

/-- **C10.**  A fresh acquirer hitting a held-and-stale match lock with a
non-empty waiter queue replaces the whole registry entry by a fresh lock
it owns: the waiter queue is wiped, every previously queued waiter is
neither granted (the grant log gains only the fresh acquirer) nor woken
(nothing is scheduled), so it can only fail via its own timeout. -/
theorem claim10_stale_acquire_drops_waiters :
    ∀ (s : GState) (key pid now : Nat) (l : GameLock) (w : Nat),
      mget s.gameLocks key = some l → l.locked = true →
      now - l.timestamp > 10000 → w ∈ l.queue → w ≠ pid →
      (acquireGameLock key pid now s).gameLocks =
        mset (mdelete s.gameLocks key) key ⟨true, some pid, now, []⟩ ∧
      (w ∈ (acquireGameLock key pid now s).ggranted ↔ w ∈ s.ggranted) ∧
      (acquireGameLock key pid now s).gpending = s.gpending := by
  intro s key pid now l w h hl hs hw hne
  rw [stale_acquire_eq s key pid now l h hl hs]
  refine ⟨rfl, ?_, rfl⟩
  simp [List.mem_append, hne]

/-- Witness for C10: the same scenario, observed for the dropped waiter
(player 2). -/
theorem claim10_witness :
    (acquireGameLock 0 3 15000 gameLockWithWaiter).gameLocks =
      mset (mdelete gameLockWithWaiter.gameLocks 0) 0 ⟨true, some 3, 15000, []⟩ ∧
    (2 ∈ (acquireGameLock 0 3 15000 gameLockWithWaiter).ggranted ↔
      2 ∈ gameLockWithWaiter.ggranted) ∧
    (acquireGameLock 0 3 15000 gameLockWithWaiter).gpending =
      gameLockWithWaiter.gpending :=
  claim10_stale_acquire_drops_waiters gameLockWithWaiter 0 3 15000
    ⟨true, some 1, 0, [2]⟩ 2 (by decide) (by decide) (by decide) (by decide) (by decide)

/-- **C5 (amended).**  When a worker frees up, `processNextTask` does
take the oldest entry of the first non-empty tier in the order high,
normal, low; but a task submitted while some worker is idle is executed
immediately regardless of its priority, so with one idle worker and
submissions low, normal, high (in that order) the execution order is
low, then high, then normal. -/
theorem claim5_dispatch_order :
    (∀ (s : PState) (t : TaskW) (th : Thread),
      findAvailableThread s.threadPool = some th →
      executeInThread t s = startTask th.id t s) ∧
    (∀ (s : PState) (t : TaskW) (tl : List QEntry) (th : Thread),
      mget s.playerQueues "high" = some (QEntry.task t :: tl) →
      findAvailableThread s.threadPool = some th →
      processNextTask s =
        startTask th.id t { s with playerQueues := mset s.playerQueues "high" tl }) ∧
    (∀ (s : PState) (t : TaskW) (tl : List QEntry) (th : Thread),
      tierIsEmpty s "high" →
      mget s.playerQueues "normal" = some (QEntry.task t :: tl) →
      findAvailableThread s.threadPool = some th →
      processNextTask s =
        startTask th.id t { s with playerQueues := mset s.playerQueues "normal" tl }) ∧
    (∀ (s : PState) (t : TaskW) (tl : List QEntry) (th : Thread),
      tierIsEmpty s "high" → tierIsEmpty s "normal" →
      mget s.playerQueues "low" = some (QEntry.task t :: tl) →
      findAvailableThread s.threadPool = some th →
      processNextTask s =
        startTask th.id t { s with playerQueues := mset s.playerQueues "low" tl }) := by
  refine ⟨?_, ?_, ?_, ?_⟩
  · intro s t th hth
    simp only [executeInThread, hth]
  · intro s t tl th hq hth
    simp only [processNextTask, processNextTaskGo, hq, hth]
  · intro s t tl th hh hq hth
    rcases hh with hh | hh <;>
      simp only [processNextTask, processNextTaskGo, hh, hq, hth]
  · intro s t tl th hh hn hq hth
    rcases hh with hh | hh <;> rcases hn with hn | hn <;>
      simp only [processNextTask, processNextTaskGo, hh, hn, hq, hth]

/-- Witness for C5 (amended): each dispatch shape at a concrete state —
an idle worker takes a submission immediately, and `processNextTask`
serves the high, then normal, then low tier head. -/
theorem claim5_witness :
    executeInThread ⟨1, "high", 0⟩ initPState = startTask 0 ⟨1, "high", 0⟩ initPState ∧
    processNextTask soloIdleHigh =
      startTask 0 ⟨5, "high", 3⟩
        { soloIdleHigh with playerQueues := mset soloIdleHigh.playerQueues "high" [] } ∧
    processNextTask soloIdleNormal =
      startTask 0 ⟨6, "normal", 4⟩
        { soloIdleNormal with playerQueues := mset soloIdleNormal.playerQueues "normal" [] } ∧
    processNextTask soloIdleLow =
      startTask 0 ⟨8, "low", 5⟩
        { soloIdleLow with playerQueues := mset soloIdleLow.playerQueues "low" [] } := by
  refine ⟨?_, ?_, ?_, ?_⟩
  · exact claim5_dispatch_order.1 initPState ⟨1, "high", 0⟩ ⟨0, false, none⟩ (by decide)
  · exact claim5_dispatch_order.2.1 soloIdleHigh ⟨5, "high", 3⟩ [] ⟨0, false, none⟩
      (by decide) (by decide)
  · exact claim5_dispatch_order.2.2.1 soloIdleNormal ⟨6, "normal", 4⟩ [] ⟨0, false, none⟩
      (by decide) (by decide) (by decide)
  · exact claim5_dispatch_order.2.2.2 soloIdleLow ⟨8, "low", 5⟩ [] ⟨0, false, none⟩
      (by decide) (by decide) (by decide) (by decide)

/-- **C7.**  A submitted unit of work that throws settles its promise
with exactly that error; the `finally` block returns the executing thread
to the idle pool (busy cleared, `currentTask` cleared) and decrements
`activeThreads`, leaving the tier queues untouched; and the concluding
`processNextTask()` then dispatches the oldest queued high task, so a
single task failure does not corrupt the scheduler. -/
theorem claim7_task_failure_recovery :
    ∀ (s : PState) (thId tid : Nat) (e : String) (b : Bool) (c : Option Nat)
      (t : TaskW) (tl : List QEntry),
      Thread.mk thId b c ∈ s.threadPool →
      mget s.playerQueues "high" = some (QEntry.task t :: tl) →
      (completeTask thId tid (Except.error e) s).futures =
        s.futures ++ [(tid, Except.error e)] ∧
      Thread.mk thId false none ∈ (completeTask thId tid (Except.error e) s).threadPool ∧
      (completeTask thId tid (Except.error e) s).activeThreads = s.activeThreads - 1 ∧
      (completeTask thId tid (Except.error e) s).playerQueues = s.playerQueues ∧
      finishTask thId tid (Except.error e) s =
        processNextTask (completeTask thId tid (Except.error e) s) ∧
      (finishTask thId tid (Except.error e) s).started = s.started ++ [t.id] := by
  intro s thId tid e b c t tl hmem hq
  have hidle : Thread.mk thId false none ∈
      (completeTask thId tid (Except.error e) s).threadPool := by
    simp only [completeTask]
    refine List.mem_map.mpr ⟨⟨thId, b, c⟩, hmem, ?_⟩
    simp
  refine ⟨rfl, hidle, rfl, rfl, rfl, ?_⟩
  have hsome : ((completeTask thId tid (Except.error e) s).threadPool.find?
      (fun th => !th.busy)).isSome := by
    rw [List.find?_isSome]
    exact ⟨⟨thId, false, none⟩, hidle, rfl⟩
  obtain ⟨th, hth⟩ := Option.isSome_iff_exists.mp hsome
  have hfind : findAvailableThread
      (completeTask thId tid (Except.error e) s).threadPool = some th := hth
  have hq2 : mget (completeTask thId tid (Except.error e) s).playerQueues "high" =
      some (QEntry.task t :: tl) := hq
  simp only [finishTask, processNextTask, processNextTaskGo, hq2, hfind, startTask]
  rfl

/-- Witness for C7: thread 0 runs task 50, which throws; task 7 waits in
the high tier. -/
theorem claim7_witness :
    (completeTask 0 50 (Except.error "boom") failingTaskState).futures =
      failingTaskState.futures ++ [(50, Except.error "boom")] ∧
    Thread.mk 0 false none ∈
      (completeTask 0 50 (Except.error "boom") failingTaskState).threadPool ∧
    (completeTask 0 50 (Except.error "boom") failingTaskState).activeThreads =
      failingTaskState.activeThreads - 1 ∧
    (completeTask 0 50 (Except.error "boom") failingTaskState).playerQueues =
      failingTaskState.playerQueues ∧
    finishTask 0 50 (Except.error "boom") failingTaskState =
      processNextTask (completeTask 0 50 (Except.error "boom") failingTaskState) ∧
    (finishTask 0 50 (Except.error "boom") failingTaskState).started =
      failingTaskState.started ++ [7] :=
  claim7_task_failure_recovery failingTaskState 0 50 "boom" true (some 50)
    ⟨7, "high", 0⟩ [] (by decide) (by decide)

/-- Helper: `addPlayerToQueue` when the turn queue does not exist yet. -/
theorem addPlayer_key_missing (s : PState) (gid pid : Nat)
    (h : mget s.playerQueues ("queue_" ++ toString gid) = none) :
    addPlayerToQueue gid pid s =
      ({ s with playerQueues := mset s.playerQueues ("queue_" ++ toString gid) [QEntry.player pid] }, 0) := by
  simp [addPlayerToQueue, mhas, h, mget_mset_self, mset_mset, jsIndexOf]

/-- Helper: `addPlayerToQueue` when the queue exists and the player is
not yet in it. -/
theorem addPlayer_fresh (s : PState) (gid pid : Nat) (q : List QEntry)
    (h : mget s.playerQueues ("queue_" ++ toString gid) = some q)
    (hmem : QEntry.player pid ∉ q) :
    addPlayerToQueue gid pid s =
      ({ s with playerQueues := mset s.playerQueues ("queue_" ++ toString gid) (q ++ [QEntry.player pid]) },
        (q.length : Int)) := by
  simp [addPlayerToQueue, mhas, h, hmem, jsIndexOf_append_self]

/-- Helper: `addPlayerToQueue` when the player is already queued. -/
theorem addPlayer_present (s : PState) (gid pid : Nat) (q : List QEntry)
    (h : mget s.playerQueues ("queue_" ++ toString gid) = some q)
    (hmem : QEntry.player pid ∈ q) :
    addPlayerToQueue gid pid s = (s, jsIndexOf (QEntry.player pid) q) := by
  simp [addPlayerToQueue, mhas, h, hmem, mset_mget_self]

/-- **C8.**  Turn-queue enqueue is an idempotent append returning the
0-based position: repeating an enqueue returns the identical state and
position; a fresh participant is appended at the end (position = old
length); an already-present participant leaves the queue unchanged and
gets its existing index; a missing queue is created with the participant
at position 0. -/
theorem claim8_enqueue_idempotent :
    (∀ (s : PState) (gid pid : Nat),
      addPlayerToQueue gid pid (addPlayerToQueue gid pid s).1 = addPlayerToQueue gid pid s) ∧
    (∀ (s : PState) (gid pid : Nat),
      mget s.playerQueues ("queue_" ++ toString gid) = none →
      addPlayerToQueue gid pid s =
        ({ s with playerQueues := mset s.playerQueues ("queue_" ++ toString gid) [QEntry.player pid] }, 0)) ∧
    (∀ (s : PState) (gid pid : Nat) (q : List QEntry),
      mget s.playerQueues ("queue_" ++ toString gid) = some q →
      QEntry.player pid ∉ q →
      addPlayerToQueue gid pid s =
        ({ s with playerQueues := mset s.playerQueues ("queue_" ++ toString gid) (q ++ [QEntry.player pid]) },
          (q.length : Int))) ∧
    (∀ (s : PState) (gid pid : Nat) (q : List QEntry),
      mget s.playerQueues ("queue_" ++ toString gid) = some q →
      QEntry.player pid ∈ q →
      addPlayerToQueue gid pid s = (s, jsIndexOf (QEntry.player pid) q)) := by
  refine ⟨?_, addPlayer_key_missing, addPlayer_fresh, addPlayer_present⟩
  intro s gid pid
  cases hq : mget s.playerQueues ("queue_" ++ toString gid) with
  | none =>
    rw [addPlayer_key_missing s gid pid hq]
    rw [addPlayer_present _ gid pid [QEntry.player pid]
      (mget_mset_self s.playerQueues _ _) (by simp)]
    simp [jsIndexOf]
  | some q =>
    by_cases hmem : QEntry.player pid ∈ q
    · rw [addPlayer_present s gid pid q hq hmem]
      exact addPlayer_present s gid pid q hq hmem
    · rw [addPlayer_fresh s gid pid q hq hmem]
      rw [addPlayer_present _ gid pid (q ++ [QEntry.player pid])
        (mget_mset_self s.playerQueues _ _) (by simp)]
      rw [jsIndexOf_append_self _ _ hmem]

/-- Witness for C8: game 7 on a fresh manager (queue created, position
0), the repeat enqueue (identical result), and a second participant
appended at position 1. -/
theorem claim8_witness :
    addPlayerToQueue 7 42 (addPlayerToQueue 7 42 initPState).1 =
      addPlayerToQueue 7 42 initPState ∧
    addPlayerToQueue 7 42 initPState =
      ({ initPState with playerQueues := mset initPState.playerQueues ("queue_" ++ toString 7) [QEntry.player 42] }, 0) ∧
    addPlayerToQueue 7 43 oneTurnParticipant =
      ({ oneTurnParticipant with playerQueues := mset oneTurnParticipant.playerQueues ("queue_" ++ toString 7) ([QEntry.player 42] ++ [QEntry.player 43]) }, 1) ∧
    addPlayerToQueue 7 42 oneTurnParticipant =
      (oneTurnParticipant, jsIndexOf (QEntry.player 42) [QEntry.player 42]) := by
  refine ⟨?_, ?_, ?_, ?_⟩
  · exact claim8_enqueue_idempotent.1 initPState 7 42
  · exact claim8_enqueue_idempotent.2.1 initPState 7 42 (by decide)
  · exact claim8_enqueue_idempotent.2.2.1 oneTurnParticipant 7 43
      [QEntry.player 42] (by decide) (by decide)
  · exact claim8_enqueue_idempotent.2.2.2 oneTurnParticipant 7 42
      [QEntry.player 42] (by decide) (by decide)

/-- **C9 (amended).**  `getStats().queuedTasks` equals the summed length
of *every* queue of the shared `playerQueues` map — the queued tasks
across the high/normal/low tiers plus the per-game turn-queue
participants stored in the same map. -/
theorem claim9_queuedTasks_counts_all_queues :
    ∀ s : PState, getStatsQueuedTasks s = queuedTasksAcrossTiers s + queuedOutsideTiers s := by
  intro s
  unfold getStatsQueuedTasks queuedTasksAcrossTiers queuedOutsideTiers
  induction s.playerQueues with
  | nil => rfl
  | cons p rest ih =>
    by_cases h : p.1 ∈ tierKeys <;>
      simp [List.filter_cons, h, ih] <;> omega

end ConcurrencyManager
